import Mathlib

/-!
# Verification of the giffit browser extension

Shallow embedding of the giffit pipeline (YouTube range selection → frame
capture → GIF encoding) and proofs about it.  Times and other JS numbers are
modelled as rationals (`ℚ`), strings as `List Char`, fallible platform calls
as `Option`-valued inputs.

Sources embedded:
* the selection handlers and conversion trigger of the overlay component
  (`handleStartTimeChange`, `handleEndTimeChange`, `handleStartConversion`);
* the capture/encode loop of `VideoProcessor.processVideo`
  (`src/utils/videoProcessor.ts`);
* the URL and time parser (`src/utils/youtubeParser.ts`);
* the two final-generation message listeners (background service worker and
  content script);
* the page-context bridge request/timeout race
  (`src/utils/pageContextBridge.ts`).
-/

/-! ## Selection UI (overlay component)

State of the dual-handle range control: the selected `[startTime, endTime]`
window, in seconds.  `MAX_GIF_DURATION = 15` is the fixed duration ceiling
from the source. -/

def MAX_GIF_DURATION : ℚ := 15

structure SelState where
  startTime : ℚ
  endTime : ℚ
  deriving DecidableEq, Repr

/-- `handleStartTimeChange` from the overlay component:
`maxStart = Math.max(0, Math.min(newStartTime, endTime - 0.1))`; if
`endTime - maxStart > MAX_GIF_DURATION` then `endTime` is set to
`maxStart + MAX_GIF_DURATION`; `startTime` is set to `maxStart`. -/
def handleStartTimeChange (s : SelState) (newStartTime : ℚ) : SelState :=
  let maxStart := max 0 (min newStartTime (s.endTime - 0.1))
  { startTime := maxStart
    endTime :=
      if s.endTime - maxStart > MAX_GIF_DURATION then maxStart + MAX_GIF_DURATION
      else s.endTime }

/-- `handleEndTimeChange` from the overlay component:
`maxEnd = Math.min(newEndTime, startTime + MAX_GIF_DURATION, videoDuration)`;
`endTime` is set to `maxEnd`.  There is no clamp from below. -/
def handleEndTimeChange (videoDuration : ℚ) (s : SelState) (newEndTime : ℚ) : SelState :=
  { s with endTime := min newEndTime (min (s.startTime + MAX_GIF_DURATION) videoDuration) }

/-- One user move of either handle, with an arbitrary raw argument. -/
inductive SelMove where
  | moveStart (t : ℚ)
  | moveEnd (t : ℚ)
  deriving DecidableEq, Repr

def applyMove (videoDuration : ℚ) (s : SelState) : SelMove → SelState
  | .moveStart t => handleStartTimeChange s t
  | .moveEnd t => handleEndTimeChange videoDuration s t

def applyMoves (videoDuration : ℚ) (s : SelState) (ms : List SelMove) : SelState :=
  ms.foldl (applyMove videoDuration) s

/-- The selection invariant as the spec states it:
`0 ≤ start < end` and `end - start ≤ MAX_GIF_DURATION`. -/
def SpecSelInv (s : SelState) : Prop :=
  0 ≤ s.startTime ∧ s.startTime < s.endTime ∧
    s.endTime - s.startTime ≤ MAX_GIF_DURATION

/-- A fully valid selection state (the spec invariant plus `end ≤ duration`). -/
def ValidSel (videoDuration : ℚ) (s : SelState) : Prop :=
  0 ≤ s.startTime ∧ s.startTime < s.endTime ∧
    s.endTime - s.startTime ≤ MAX_GIF_DURATION ∧ s.endTime ≤ videoDuration

/-- The invariant the handlers actually maintain: `0 ≤ start`,
`end - start ≤ MAX_GIF_DURATION` and `end ≤ videoDuration` — but not
`start < end`, since an end move has no lower clamp. -/
def WeakSelInv (videoDuration : ℚ) (s : SelState) : Prop :=
  0 ≤ s.startTime ∧ s.endTime - s.startTime ≤ MAX_GIF_DURATION ∧
    s.endTime ≤ videoDuration

instance (s : SelState) : Decidable (SpecSelInv s) := by
  unfold SpecSelInv; infer_instance

instance (d : ℚ) (s : SelState) : Decidable (ValidSel d s) := by
  unfold ValidSel; infer_instance

instance (d : ℚ) (s : SelState) : Decidable (WeakSelInv d s) := by
  unfold WeakSelInv; infer_instance

/-! ## Conversion trigger (`handleStartConversion`)

The synchronous prefix of `handleStartConversion`, up to and including the
duration validation: it first resets the transient conversion fields, then
validates `duration = endTime - startTime` and either stops in the `error`
status (without ever calling `processVideo`) or proceeds to the capture
call.  The `Bool` component records whether `processor.processVideo` is
invoked. -/

inductive ConversionStatus where
  | idle | preparing | downloading | converting | complete | error
  deriving DecidableEq, Repr

structure OverlayState where
  startTime : ℚ
  endTime : ℚ
  status : ConversionStatus
  progress : ℚ
  errorMessage : String
  statusMessage : String
  outputBlob : Option (List ℕ)
  fps : ℕ
  width : ℕ
  deriving DecidableEq, Repr

def handleStartConversion (s : OverlayState) : OverlayState × Bool :=
  let s1 := { s with
    status := ConversionStatus.preparing
    progress := 0
    errorMessage := ""
    outputBlob := none
    statusMessage := "Initializing..." }
  let duration := s.endTime - s.startTime
  if duration ≤ 0 then
    ({ s1 with
        status := ConversionStatus.error
        errorMessage := "Invalid time range. End time must be greater than start time." },
     false)
  else if duration > MAX_GIF_DURATION then
    ({ s1 with
        status := ConversionStatus.error
        errorMessage := "Duration cannot exceed 15 seconds." },
     false)
  else
    (s1, true)

/-! ## Frame capture and GIF encode (`VideoProcessor.processVideo`)

The pure data flow of the capture loop and of the encode loop, abstracted
over the DOM: the video element contributes only its aspect ratio
(`videoWidth / videoHeight`), and a captured frame is recorded by its seek
timestamp and raster size. -/

structure ConversionOptions where
  fps : ℚ
  width : ℚ
  startTime : ℚ
  duration : ℚ
  deriving DecidableEq, Repr

/-- `canvas.height = Math.round(options.width / videoAspect)`.
JS `Math.round x = ⌊x + 1/2⌋`, which is Mathlib's `round`. -/
def canvasHeight (o : ConversionOptions) (videoAspect : ℚ) : ℤ :=
  round (o.width / videoAspect)

/-- `totalFrames = Math.ceil(options.duration * options.fps)`; the capture
loop runs `for i in [0, totalFrames)`, so a non-positive count yields zero
iterations. -/
def totalFrames (o : ConversionOptions) : ℕ :=
  (Int.ceil (o.duration * o.fps)).toNat

/-- `frameDuration = 1 / options.fps`; frame `i` seeks to
`targetTime = options.startTime + i * frameDuration`. -/
def frameTimestamp (o : ConversionOptions) (i : ℕ) : ℚ :=
  o.startTime + i * (1 / o.fps)

structure CapturedFrame where
  timestamp : ℚ
  width : ℚ
  height : ℤ
  deriving DecidableEq, Repr

/-- The in-memory frame sequence produced by the capture loop, in capture
order. -/
def captureFrames (o : ConversionOptions) (videoAspect : ℚ) : List CapturedFrame :=
  (List.range (totalFrames o)).map fun i =>
    { timestamp := frameTimestamp o i
      width := o.width
      height := canvasHeight o videoAspect }

/-- `delay = Math.round((1000 / options.fps) / 10)` — gifenc uses
centiseconds. -/
def gifDelay (o : ConversionOptions) : ℤ :=
  round ((1000 / o.fps) / 10)

/-- One frame as written to the GIF stream by `gif.writeFrame`: the source
frame plus the inter-frame delay passed along with it. -/
structure WrittenFrame where
  frame : CapturedFrame
  delay : ℤ
  deriving DecidableEq, Repr

/-- The encode loop: for each captured frame, in order, append a written
frame carrying the single `delay` value computed before the loop. -/
def encodeFrames (frames : List CapturedFrame) (delay : ℤ) : List WrittenFrame :=
  frames.foldl (fun gif f => gif ++ [{ frame := f, delay := delay }]) []

/-! ## Inter-context message listeners

The final-generation background service worker listener dispatches on
`message.type` and answers `{success: false, error: "Unknown message type"}`
on the `default` branch; the content-script listener handles only
`OPEN_OVERLAY` (answering with the result of `handleOpenOverlay`, or a
structured failure if it rejects) and sends no response at all for any
other type. -/

structure MessageResponse where
  success : Bool
  error : Option String
  deriving DecidableEq, Repr

/-- The background `chrome.runtime.onMessage` listener, by message type. -/
def backgroundOnMessage (msgType : String) : MessageResponse :=
  if msgType = "CLIP_DETECTED" then { success := true, error := none }
  else if msgType = "START_CONVERSION" then { success := true, error := none }
  else if msgType = "DOWNLOAD_GIF" then { success := true, error := none }
  else { success := false, error := some "Unknown message type" }

/-- The content-script `chrome.runtime.onMessage` listener, by message type;
`openOverlayResult` abstracts the settled result of `handleOpenOverlay`
(or of its `.catch` wrapper).  `none` means no `sendResponse` call is ever
made for the message. -/
def contentOnMessage (openOverlayResult : MessageResponse) (msgType : String) :
    Option MessageResponse :=
  if msgType = "OPEN_OVERLAY" then some openOverlayResult else none

/-! ## Page-context bridge (`requestYouTubeDataFromPage`)

The promise executor installs a `message` handler that resolves with
`event.data.data` on the first in-page event whose `data.type` is
`YTGIF_DATA_RESPONSE`, and a timer that after `timeout` ms removes the
handler and resolves with `{videoId: null}`.  Neither path rejects.  The
environment is modelled as the time-ordered list of in-page message events
`(arrival time, data.type, data.data)` delivered to the handler. -/

structure PageData where
  videoId : Option String
  deriving DecidableEq, Repr

inductive PromiseOutcome (α : Type) where
  | resolved (a : α)
  | rejected (e : String)
  deriving DecidableEq, Repr

def requestYouTubeDataFromPage (timeout : ℚ)
    (events : List (ℚ × String × PageData)) : PromiseOutcome PageData :=
  match events.find? (fun e => e.2.1 = "YTGIF_DATA_RESPONSE" && decide (e.1 < timeout)) with
  | some e => PromiseOutcome.resolved e.2.2
  | none => PromiseOutcome.resolved { videoId := none }

/-! ## URL / time parser (`src/utils/youtubeParser.ts`)

Strings are modelled as `List Char`.  The few regular expressions the
parser uses are embedded as explicit left-to-right scanners with exactly
the leftmost-match-with-backtracking semantics of the JS engine, spelled
out below at each definition. -/

/-- Decimal value of a digit character. -/
def digitVal (c : Char) : ℕ := c.toNat - 48

/-- `parseInt` style accumulation over a digit run:
`digitsVal (c :: cs) acc = digitsVal cs (acc * 10 + digitVal c)`. -/
def digitsVal : List Char → ℕ → ℕ
  | [], acc => acc
  | c :: cs, acc => digitsVal cs (acc * 10 + digitVal c)

/-- Leftmost match of the regex `(\d+)X` for a non-digit literal `X`
(`target`), returning the numeric value of the captured digit run.
Semantics: scanning left to right, the first maximal digit run immediately
followed by `target` matches, and greediness with backtracking adds
nothing, since a shortened run would be followed by a digit, not by
`target`.  The accumulator holds the value of the digit run currently
being read, if any. -/
def firstNumBeforeAux (target : Char) : List Char → Option ℕ → Option ℕ
  | [], _ => none
  | c :: cs, cur =>
    if c.isDigit then firstNumBeforeAux target cs (some ((cur.getD 0) * 10 + digitVal c))
    else
      match cur with
      | some v => if c = target then some v else firstNumBeforeAux target cs none
      | none => firstNumBeforeAux target cs none

def firstNumBefore (target : Char) (l : List Char) : Option ℕ :=
  firstNumBeforeAux target l none

/-- Leftmost match of `(\d+)(?!h|m)`, returning the captured value.
Semantics at a maximal digit run of value `v` and length `k`: if the run
is followed by end-of-string or by a character other than `h`/`m`, the
greedy match takes the whole run (`v`); if it is followed by `h` or `m`
and `k ≥ 2`, the engine backtracks one digit — the lookahead then sees a
digit — so the first `k - 1` digits match (`v / 10`); if `k = 1` the run
cannot match at all and scanning continues after the `h`/`m`. -/
def secMatchAux : List Char → Option (ℕ × ℕ) → Option ℕ
  | [], cur => cur.map (fun p => p.1)
  | c :: cs, cur =>
    if c.isDigit then
      match cur with
      | some (v, k) => secMatchAux cs (some (v * 10 + digitVal c, k + 1))
      | none => secMatchAux cs (some (digitVal c, 1))
    else
      match cur with
      | some (v, k) =>
        if c = 'h' ∨ c = 'm' then
          if 2 ≤ k then some (v / 10) else secMatchAux cs none
        else some v
      | none => secMatchAux cs none

def secMatch (l : List Char) : Option ℕ :=
  secMatchAux l none

/-- `timeStr.replace(/s$/, '')`: drop a single trailing `'s'`. -/
def stripTrailingS (l : List Char) : List Char :=
  if l.getLast? = some 's' then l.dropLast else l

/-- `parseTimeString` from `youtubeParser.ts`: strip a trailing `s`; if the
remainder is all digits (`/^\d+$/`), `parseInt` it; otherwise sum
`hourMatch * 3600 + minMatch * 60 + secMatch`, each contributing `0` when
its regex does not match. -/
def parseTimeString (l : List Char) : ℕ :=
  let t := stripTrailingS l
  if t ≠ [] ∧ t.all Char.isDigit then digitsVal t 0
  else
    (match firstNumBefore 'h' t with | some v => v * 3600 | none => 0)
      + (match firstNumBefore 'm' t with | some v => v * 60 | none => 0)
      + (match secMatch t with | some v => v | none => 0)

/-- Decimal digit characters of a natural number, most significant first
(the canonical JS rendering of a non-negative integer). -/
def toDecimal (n : ℕ) : List Char :=
  if h : n < 10 then [Nat.digitChar n]
  else toDecimal (n / 10) ++ [Nat.digitChar (n % 10)]
  decreasing_by exact Nat.div_lt_self (by omega) (by norm_num)

/-- The spec's round-trip input: the string `"<h>h<m>m<s>s"`. -/
def formatHMS (h m s : ℕ) : List Char :=
  toDecimal h ++ ['h'] ++ toDecimal m ++ ['m'] ++ toDecimal s ++ ['s']

/-- `a.isPrefixOf`-style check, written out. -/
def startsWithL : List Char → List Char → Bool
  | [], _ => true
  | _ :: _, [] => false
  | a :: as, b :: bs => a = b && startsWithL as bs

/-- JS `String.prototype.includes`. -/
def containsSub (needle : List Char) : List Char → Bool
  | [] => needle.isEmpty
  | c :: tl => startsWithL needle (c :: tl) || containsSub needle tl

/-- Leftmost match of `LIT([cls]+)` — a literal followed by a non-empty
greedy run of class characters — returning the captured run.  Used for
`/\/clip\/([a-zA-Z0-9_-]+)/`, `/\/embed\/...`, `/\/shorts\/...`,
`/\/([a-zA-Z0-9_-]+)/` and `/#t=(\d+)/`. -/
def matchAfterLit (lit : List Char) (cls : Char → Bool) : List Char → Option (List Char)
  | [] => none
  | c :: tl =>
    if startsWithL lit (c :: tl) then
      let run := ((c :: tl).drop lit.length).takeWhile cls
      if run.isEmpty then matchAfterLit lit cls tl else some run
    else matchAfterLit lit cls tl

/-- The regex character class `[a-zA-Z0-9_-]`. -/
def isIdChar (c : Char) : Bool :=
  c.isAlpha || c.isDigit || c = '_' || c = '-'

/-- A JS number field that can hold `NaN` (as `parseInt` of a digit-free
string produces). -/
inductive JSNum where
  | nan
  | num (n : ℤ)
  deriving DecidableEq, Repr

/-- JS `parseInt(s, 10)`: skip leading spaces, accept an optional sign,
then a leading digit run; `NaN` when no digits lead. -/
def parseIntJS (l : List Char) : JSNum :=
  let l1 := l.dropWhile (fun c => c = ' ')
  match l1 with
  | '-' :: rest =>
    if (rest.takeWhile Char.isDigit).isEmpty then JSNum.nan
    else JSNum.num (-(digitsVal (rest.takeWhile Char.isDigit) 0 : ℤ))
  | '+' :: rest =>
    if (rest.takeWhile Char.isDigit).isEmpty then JSNum.nan
    else JSNum.num (digitsVal (rest.takeWhile Char.isDigit) 0)
  | _ =>
    if (l1.takeWhile Char.isDigit).isEmpty then JSNum.nan
    else JSNum.num (digitsVal (l1.takeWhile Char.isDigit) 0)

/-- The components of a successfully constructed `new URL(url)`:
`hostname`, `pathname`, the ordered search parameters, and `hash`
(including its leading `#`). -/
structure UrlParts where
  hostname : List Char
  pathname : List Char
  searchParams : List (List Char × List Char)
  hash : List Char
  deriving DecidableEq, Repr

/-- `searchParams.get(k)`: the first value for `k`, or null. -/
def getParam (ps : List (List Char × List Char)) (k : List Char) : Option (List Char) :=
  (ps.find? (fun p => p.1 = k)).map (fun p => p.2)

structure YouTubeClipInfo where
  videoId : Option (List Char)
  clipId : Option (List Char)
  startTime : Option JSNum
  endTime : Option JSNum
  isClip : Bool
  url : List Char
  deriving DecidableEq, Repr

/-- The initial all-null `result` record of `parseYouTubeUrl`. -/
def emptyClipInfo (url : List Char) : YouTubeClipInfo :=
  { videoId := none, clipId := none, startTime := none, endTime := none
    isClip := false, url := url }

/-- `parseYouTubeUrl`.  The platform's `new URL(url)` is abstracted as the
`Option UrlParts` argument: `none` models the constructor throwing, which
the source catches, returning the untouched all-null `result`. -/
def parseYouTubeUrl (url : List Char) (u : Option UrlParts) : YouTubeClipInfo :=
  match u with
  | none => emptyClipInfo url
  | some parts =>
    if containsSub "/clip/".toList parts.pathname then
      { emptyClipInfo url with
        isClip := true
        clipId := matchAfterLit "/clip/".toList isIdChar parts.pathname
        videoId := getParam parts.searchParams "v".toList }
    else
      let vId : Option (List Char) :=
        if containsSub "youtube.com".toList parts.hostname then
          let v0 := getParam parts.searchParams "v".toList
          let v1 := match matchAfterLit "/embed/".toList isIdChar parts.pathname with
                    | some g => some g
                    | none => v0
          match matchAfterLit "/shorts/".toList isIdChar parts.pathname with
          | some g => some g
          | none => v1
        else if containsSub "youtu.be".toList parts.hostname then
          matchAfterLit "/".toList isIdChar parts.pathname
        else none
      let r0 := { emptyClipInfo url with videoId := vId }
      let r1 := match getParam parts.searchParams "start".toList with
                | some sv =>
                  if sv.isEmpty then r0
                  else { r0 with startTime := some (parseIntJS sv), isClip := true }
                | none => r0
      let r2 := match getParam parts.searchParams "end".toList with
                | some ev =>
                  if ev.isEmpty then r1
                  else { r1 with endTime := some (parseIntJS ev), isClip := true }
                | none => r1
      let r3 := match getParam parts.searchParams "t".toList with
                | some tv =>
                  if tv.isEmpty then r2
                  else { r2 with startTime := some (JSNum.num (parseTimeString tv)) }
                | none => r2
      match matchAfterLit "#t=".toList Char.isDigit parts.hash with
      | some ds => { r3 with startTime := some (JSNum.num (digitsVal ds 0)) }
      | none => r3

/-- A URL shape none of the parser's branches recognize: no `/clip/` path
segment, a hostname containing neither `youtube.com` nor `youtu.be`, no
truthy `start`/`end`/`t` query parameter, and no `#t=<digits>` fragment. -/
def UnrecognizedUrl (p : UrlParts) : Prop :=
  containsSub "/clip/".toList p.pathname = false ∧
    containsSub "youtube.com".toList p.hostname = false ∧
    containsSub "youtu.be".toList p.hostname = false ∧
    (getParam p.searchParams "start".toList = none ∨
      getParam p.searchParams "start".toList = some []) ∧
    (getParam p.searchParams "end".toList = none ∨
      getParam p.searchParams "end".toList = some []) ∧
    (getParam p.searchParams "t".toList = none ∨
      getParam p.searchParams "t".toList = some []) ∧
    matchAfterLit "#t=".toList Char.isDigit p.hash = none

instance (p : UrlParts) : Decidable (UnrecognizedUrl p) := by
  unfold UnrecognizedUrl; infer_instance

/-- A clip URL that also carries `start`, `end` and `t` query parameters
and a `#t=` fragment, for exercising the clip early return. -/
def clipUrlWithTimes : UrlParts :=
  { hostname := "www.youtube.com".toList
    pathname := "/clip/Ugkxyz".toList
    searchParams :=
      [("start".toList, "10".toList), ("end".toList, "20".toList),
       ("t".toList, "30".toList)]
    hash := "#t=40".toList }

/-- A well-formed but unrecognized URL shape: an `example.com` address with
an empty (falsy) `start` parameter, an unrelated query parameter and a
non-time fragment. -/
def exampleUnrecognizedParts : UrlParts :=
  { hostname := "example.com".toList
    pathname := "/watch".toList
    searchParams := [("start".toList, "".toList), ("x".toList, "1".toList)]
    hash := "#frag".toList }

/-- An overlay state holding an oversized selection (`0` to `9999` s)
together with non-default transient fields (`progress = 50`, a previous
output blob), for exercising `handleStartConversion`. -/
def oversizedOverlayState : OverlayState :=
  { startTime := 0
    endTime := 9999
    status := ConversionStatus.idle
    progress := 50
    errorMessage := ""
    statusMessage := ""
    outputBlob := some [71, 73, 70]
    fps := 15
    width := 480 }

/-! ## Helper lemmas -/

theorem encodeFrames_foldl (l : List CapturedFrame) (d : ℤ) (acc : List WrittenFrame) :
    l.foldl (fun gif f => gif ++ [{ frame := f, delay := d }]) acc =
      acc ++ l.map (fun f => { frame := f, delay := d }) := by
  induction l generalizing acc with
  | nil => simp
  | cons f fs ih => simp [List.foldl_cons, ih]

theorem encodeFrames_eq_map (l : List CapturedFrame) (d : ℤ) :
    encodeFrames l d = l.map (fun f => { frame := f, delay := d }) := by
  simpa using encodeFrames_foldl l d []

theorem handleStartTimeChange_weak (D : ℚ) (s : SelState) (t : ℚ)
    (h : WeakSelInv D s) : WeakSelInv D (handleStartTimeChange s t) := by
  obtain ⟨h0, hspan, hD⟩ := h
  unfold WeakSelInv handleStartTimeChange MAX_GIF_DURATION at *
  dsimp only
  split_ifs with hc
  · refine ⟨le_max_left _ _, by linarith, by linarith⟩
  · push_neg at hc
    exact ⟨le_max_left _ _, by linarith, hD⟩

theorem handleEndTimeChange_weak (D : ℚ) (s : SelState) (t : ℚ)
    (h : WeakSelInv D s) : WeakSelInv D (handleEndTimeChange D s t) := by
  obtain ⟨h0, hspan, hD⟩ := h
  unfold WeakSelInv handleEndTimeChange MAX_GIF_DURATION at *
  dsimp only
  have h1 : min t (min (s.startTime + 15) D) ≤ s.startTime + 15 :=
    le_trans (min_le_right _ _) (min_le_left _ _)
  have h2 : min t (min (s.startTime + 15) D) ≤ D :=
    le_trans (min_le_right _ _) (min_le_right _ _)
  exact ⟨h0, by linarith, h2⟩

/-! ## Claim theorems -/

/-- Claim C1, counterexample: from the valid selection state
`(start, end) = (5, 15)` (with `totalDuration = 100`), the single end move
`handleEndTimeChange 3` produces the state `(5, 3)`, which violates
`start < end`: end moves are not clamped from below. -/
theorem selection_invariant_cex :
    ValidSel 100 ⟨5, 15⟩ ∧
      applyMoves 100 ⟨5, 15⟩ [SelMove.moveEnd 3] = ⟨5, 3⟩ ∧
      ¬ SpecSelInv (applyMoves 100 ⟨5, 15⟩ [SelMove.moveEnd 3]) := by
  refine ⟨by norm_num [ValidSel, MAX_GIF_DURATION], ?_, ?_⟩
  · norm_num [applyMoves, applyMove, handleEndTimeChange, MAX_GIF_DURATION, min_def]
  · norm_num [applyMoves, applyMove, handleEndTimeChange, SpecSelInv,
      MAX_GIF_DURATION, min_def]

/-- Claim C1, amended: starting from any state satisfying `0 ≤ start`,
`end - start ≤ MAX_GIF_DURATION` and `end ≤ totalDuration`, any finite
sequence of `handleStartTimeChange` / `handleEndTimeChange` calls with
arbitrary rational arguments preserves exactly those three properties;
`start < end` is not preserved, because an end move is clamped only from
above. -/
theorem selection_weak_invariant (D : ℚ) (s : SelState) (ms : List SelMove)
    (h : WeakSelInv D s) : WeakSelInv D (applyMoves D s ms) := by
  induction ms generalizing s with
  | nil => exact h
  | cons m ms ih =>
    apply ih
    cases m with
    | moveStart t => exact handleStartTimeChange_weak D s t h
    | moveEnd t => exact handleEndTimeChange_weak D s t h

/-- Witness for C1's amended theorem at a concrete state and move list. -/
theorem selection_weak_invariant_witness :
    WeakSelInv 100 ⟨5, 15⟩ ∧
      WeakSelInv 100 (applyMoves 100 ⟨5, 15⟩
        [SelMove.moveStart 2, SelMove.moveEnd 30, SelMove.moveEnd 1]) :=
  ⟨by norm_num [WeakSelInv, MAX_GIF_DURATION],
    selection_weak_invariant 100 ⟨5, 15⟩ _ (by norm_num [WeakSelInv, MAX_GIF_DURATION])⟩

/-- Claim C2, counterexample: with `start = 5`, `end = 15` and
`MAX_GIF_DURATION = 15`, moving start to `20` does not yield
`(20, 35)`; the start argument is clamped to `end - 0.1`, giving
`(14.9, 15)`. -/
theorem handleStartTimeChange_cex :
    handleStartTimeChange ⟨5, 15⟩ 20 = ⟨149 / 10, 15⟩ ∧
      handleStartTimeChange ⟨5, 15⟩ 20 ≠ ⟨20, 35⟩ := by
  refine ⟨?_, ?_⟩ <;>
    norm_num [handleStartTimeChange, MAX_GIF_DURATION, min_def, max_def]

/-- Claim C2, amended: a start move is clamped from above to
`end - 0.1`, so start can never pass end, and a start move never moves
end forward (`end` only ever decreases, to `start + MAX_GIF_DURATION`,
when the clamped span would exceed the ceiling); the resulting span is
always at most `MAX_GIF_DURATION`. -/
theorem handleStartTimeChange_clamped (s : SelState) (t : ℚ)
    (h : 0.1 ≤ s.endTime) :
    (handleStartTimeChange s t).startTime ≤ s.endTime - 0.1 ∧
      (handleStartTimeChange s t).endTime ≤ s.endTime ∧
      (handleStartTimeChange s t).endTime - (handleStartTimeChange s t).startTime
        ≤ MAX_GIF_DURATION := by
  unfold handleStartTimeChange MAX_GIF_DURATION
  dsimp only
  have hM1 : max 0 (min t (s.endTime - 0.1)) ≤ s.endTime - 0.1 :=
    max_le (by linarith) (min_le_right _ _)
  split_ifs with hc
  · exact ⟨hM1, by linarith, by linarith⟩
  · push_neg at hc
    exact ⟨hM1, le_refl _, by linarith⟩

/-- Witness for C2's amended theorem at the claim's own scenario
`start = 5`, `end = 15`, move start to `20`. -/
theorem handleStartTimeChange_clamped_witness :
    (0.1 : ℚ) ≤ (SelState.mk 5 15).endTime ∧
      ((handleStartTimeChange ⟨5, 15⟩ 20).startTime ≤ (SelState.mk 5 15).endTime - 0.1 ∧
        (handleStartTimeChange ⟨5, 15⟩ 20).endTime ≤ (SelState.mk 5 15).endTime ∧
        (handleStartTimeChange ⟨5, 15⟩ 20).endTime -
            (handleStartTimeChange ⟨5, 15⟩ 20).startTime ≤ MAX_GIF_DURATION) :=
  ⟨by norm_num, handleStartTimeChange_clamped ⟨5, 15⟩ 20 (by norm_num)⟩

/-- Claim C5, counterexample: the content-script listener, given a message
type it does not recognize, sends no response at all (`none`) instead of a
structured failure. -/
theorem contentListener_unknown_cex :
    contentOnMessage { success := true, error := none } "BOGUS_TYPE" = none := by
  decide

/-- Claim C5, amended: on a message type none of its cases recognize, the
background listener answers the structured failure
`{success: false, error: "Unknown message type"}`, but the content-script
listener (which recognizes only `OPEN_OVERLAY`) sends no response at all;
neither throws. -/
theorem messageListeners_unknown_type (t : String) (r : MessageResponse)
    (h1 : t ≠ "CLIP_DETECTED") (h2 : t ≠ "START_CONVERSION")
    (h3 : t ≠ "DOWNLOAD_GIF") (h4 : t ≠ "OPEN_OVERLAY") :
    backgroundOnMessage t = { success := false, error := some "Unknown message type" } ∧
      contentOnMessage r t = none := by
  unfold backgroundOnMessage contentOnMessage
  rw [if_neg h1, if_neg h2, if_neg h3, if_neg h4]
  exact ⟨rfl, rfl⟩

/-- Witness for C5's amended theorem at the concrete type `"BOGUS_TYPE"`. -/
theorem messageListeners_unknown_type_witness :
    ("BOGUS_TYPE" ≠ "CLIP_DETECTED" ∧ "BOGUS_TYPE" ≠ "START_CONVERSION" ∧
        "BOGUS_TYPE" ≠ "DOWNLOAD_GIF" ∧ "BOGUS_TYPE" ≠ "OPEN_OVERLAY") ∧
      backgroundOnMessage "BOGUS_TYPE" =
          { success := false, error := some "Unknown message type" } ∧
        contentOnMessage { success := true, error := none } "BOGUS_TYPE" = none :=
  ⟨⟨by decide, by decide, by decide, by decide⟩,
    messageListeners_unknown_type "BOGUS_TYPE" { success := true, error := none }
      (by decide) (by decide) (by decide) (by decide)⟩

/-- Claim C7, counterexample: triggering conversion on the selection
`(0, 9999)` against `MAX_GIF_DURATION = 15` does reject before any capture
call — but it does not leave the rest of the state unchanged: the handler
first resets `progress` to `0` and clears the previous output blob. -/
theorem handleStartConversion_state_cex :
    (handleStartConversion oversizedOverlayState).1.status = ConversionStatus.error ∧
      (handleStartConversion oversizedOverlayState).2 = false ∧
      (handleStartConversion oversizedOverlayState).1.progress ≠
        oversizedOverlayState.progress ∧
      (handleStartConversion oversizedOverlayState).1.outputBlob ≠
        oversizedOverlayState.outputBlob := by
  refine ⟨?_, ?_, ?_, ?_⟩
  · norm_num [handleStartConversion, oversizedOverlayState, MAX_GIF_DURATION]
  · norm_num [handleStartConversion, oversizedOverlayState, MAX_GIF_DURATION]
  · norm_num [handleStartConversion, oversizedOverlayState, MAX_GIF_DURATION]
  · simp only [handleStartConversion, oversizedOverlayState, MAX_GIF_DURATION]
    norm_num
    exact fun hco => Option.noConfusion hco

/-- Claim C7, amended: a selection whose duration is non-positive or
exceeds `MAX_GIF_DURATION` is rejected by the validation at the start of
`handleStartConversion`: the status becomes `error` and
`processor.processVideo` is never invoked.  The selection and settings are
unchanged, but the transient fields are not: the handler first resets
`progress` to `0`, clears `errorMessage` and `outputBlob`, and sets
`statusMessage` to `"Initializing..."` (then overwrites `errorMessage`
with the validation message). -/
theorem handleStartConversion_validation (s : OverlayState)
    (h : s.endTime - s.startTime ≤ 0 ∨ MAX_GIF_DURATION < s.endTime - s.startTime) :
    (handleStartConversion s).1.status = ConversionStatus.error ∧
      (handleStartConversion s).2 = false ∧
      (handleStartConversion s).1.startTime = s.startTime ∧
      (handleStartConversion s).1.endTime = s.endTime ∧
      (handleStartConversion s).1.fps = s.fps ∧
      (handleStartConversion s).1.width = s.width ∧
      (handleStartConversion s).1.progress = 0 ∧
      (handleStartConversion s).1.outputBlob = none ∧
      (handleStartConversion s).1.statusMessage = "Initializing..." := by
  unfold handleStartConversion MAX_GIF_DURATION at *
  rcases h with h | h
  · rw [if_pos h]
    exact ⟨rfl, rfl, rfl, rfl, rfl, rfl, rfl, rfl, rfl⟩
  · rw [if_neg (by linarith), if_pos h]
    exact ⟨rfl, rfl, rfl, rfl, rfl, rfl, rfl, rfl, rfl⟩

/-- Witness for C7's amended theorem at the state holding selection
`(0, 9999)`. -/
theorem handleStartConversion_validation_witness :
    (oversizedOverlayState.endTime - oversizedOverlayState.startTime ≤ 0 ∨
        MAX_GIF_DURATION <
          oversizedOverlayState.endTime - oversizedOverlayState.startTime) ∧
      ((handleStartConversion oversizedOverlayState).1.status = ConversionStatus.error ∧
        (handleStartConversion oversizedOverlayState).2 = false ∧
        (handleStartConversion oversizedOverlayState).1.startTime =
          oversizedOverlayState.startTime ∧
        (handleStartConversion oversizedOverlayState).1.endTime =
          oversizedOverlayState.endTime ∧
        (handleStartConversion oversizedOverlayState).1.fps = oversizedOverlayState.fps ∧
        (handleStartConversion oversizedOverlayState).1.width =
          oversizedOverlayState.width ∧
        (handleStartConversion oversizedOverlayState).1.progress = 0 ∧
        (handleStartConversion oversizedOverlayState).1.outputBlob = none ∧
        (handleStartConversion oversizedOverlayState).1.statusMessage =
          "Initializing...") :=
  ⟨Or.inr (by norm_num [oversizedOverlayState, MAX_GIF_DURATION]),
    handleStartConversion_validation oversizedOverlayState
      (Or.inr (by norm_num [oversizedOverlayState, MAX_GIF_DURATION]))⟩

/-- Claim C9: `requestYouTubeDataFromPage` always resolves, never rejects:
its outcome is `resolved` with the data of the first in-page
`YTGIF_DATA_RESPONSE` event arriving before the timeout if there is one,
and `resolved {videoId: null}` otherwise; no input produces a `rejected`
outcome. -/
theorem requestYouTubeDataFromPage_never_rejects (timeout : ℚ)
    (events : List (ℚ × String × PageData)) :
    requestYouTubeDataFromPage timeout events =
        PromiseOutcome.resolved
          (((events.find?
                (fun e => e.2.1 = "YTGIF_DATA_RESPONSE" && decide (e.1 < timeout))).map
              (fun e => e.2.2)).getD { videoId := none }) ∧
      ∀ err : String,
        requestYouTubeDataFromPage timeout events ≠ PromiseOutcome.rejected err := by
  unfold requestYouTubeDataFromPage
  cases h : events.find?
      (fun e => e.2.1 = "YTGIF_DATA_RESPONSE" && decide (e.1 < timeout)) with
  | none => exact ⟨by simp, by simp⟩
  | some e => exact ⟨by simp, by simp⟩

/-- Claim C4: for positive duration and fps, the capture loop produces
exactly `⌈duration * fps⌉` frames, each at resolution
`(width, round (width / aspect))`; frame `i` is captured at timestamp
`startTime + i * (1 / fps)`, so timestamps are strictly increasing along
the sequence, and the encode loop writes the frames in exactly the order
they were captured. -/
theorem processVideo_capture_spec (o : ConversionOptions) (aspect : ℚ)
    (hfps : 0 < o.fps) (hdur : 0 < o.duration) :
    ((captureFrames o aspect).length : ℤ) = Int.ceil (o.duration * o.fps) ∧
      (∀ i, ∀ hi : i < (captureFrames o aspect).length,
        (captureFrames o aspect).get ⟨i, hi⟩ =
          { timestamp := o.startTime + i * (1 / o.fps)
            width := o.width
            height := round (o.width / aspect) }) ∧
      (captureFrames o aspect).Pairwise (fun a b => a.timestamp < b.timestamp) ∧
      encodeFrames (captureFrames o aspect) (gifDelay o) =
        (captureFrames o aspect).map (fun f => { frame := f, delay := gifDelay o }) := by
  have hcount : ((captureFrames o aspect).length : ℤ) = Int.ceil (o.duration * o.fps) := by
    have hpos : (0 : ℤ) < Int.ceil (o.duration * o.fps) :=
      Int.ceil_pos.mpr (mul_pos hdur hfps)
    simp only [captureFrames, List.length_map, List.length_range, totalFrames]
    exact Int.toNat_of_nonneg (le_of_lt hpos)
  refine ⟨hcount, ?_, ?_, encodeFrames_eq_map _ _⟩
  · intro i hi
    simp only [captureFrames, List.get_eq_getElem, List.getElem_map,
      List.getElem_range, frameTimestamp, canvasHeight]
  · rw [captureFrames, List.pairwise_map]
    refine (List.pairwise_lt_range _).imp ?_
    intro i j hij
    simp only [frameTimestamp]
    have hstep : (0 : ℚ) < 1 / o.fps := by positivity
    have : (i : ℚ) < (j : ℚ) := by exact_mod_cast hij
    nlinarith

/-- Witness for C4 at fps = 10, width = 480, start = 2, duration = 1,
aspect ratio 16 : 9. -/
theorem processVideo_capture_spec_witness :
    ((0 : ℚ) < (ConversionOptions.mk 10 480 2 1).fps ∧
        (0 : ℚ) < (ConversionOptions.mk 10 480 2 1).duration) ∧
      (((captureFrames ⟨10, 480, 2, 1⟩ (16 / 9)).length : ℤ) =
          Int.ceil ((ConversionOptions.mk 10 480 2 1).duration *
            (ConversionOptions.mk 10 480 2 1).fps) ∧
        (∀ i, ∀ hi : i < (captureFrames ⟨10, 480, 2, 1⟩ (16 / 9)).length,
          (captureFrames ⟨10, 480, 2, 1⟩ (16 / 9)).get ⟨i, hi⟩ =
            { timestamp := (ConversionOptions.mk 10 480 2 1).startTime + i * (1 / (ConversionOptions.mk 10 480 2 1).fps)
              width := (ConversionOptions.mk 10 480 2 1).width
              height := round ((ConversionOptions.mk 10 480 2 1).width / (16 / 9 : ℚ)) }) ∧
        (captureFrames ⟨10, 480, 2, 1⟩ (16 / 9)).Pairwise
          (fun a b => a.timestamp < b.timestamp) ∧
        encodeFrames (captureFrames ⟨10, 480, 2, 1⟩ (16 / 9))
            (gifDelay ⟨10, 480, 2, 1⟩) =
          (captureFrames ⟨10, 480, 2, 1⟩ (16 / 9)).map
            (fun f => { frame := f, delay := gifDelay ⟨10, 480, 2, 1⟩ })) :=
  ⟨⟨by norm_num, by norm_num⟩,
    processVideo_capture_spec ⟨10, 480, 2, 1⟩ (16 / 9) (by norm_num) (by norm_num)⟩

/-- Claim C8: the inter-frame delay handed to `gif.writeFrame` is
`Math.round((1000 / fps) / 10)`, which is exactly the integer rounding of
the rational `100 / fps`, and the encode loop attaches this one value to
every frame it writes — no accumulated-rounding correction exists. -/
theorem gifDelay_spec (o : ConversionOptions) (frames : List CapturedFrame)
    (hfps : 0 < o.fps) :
    gifDelay o = round ((100 : ℚ) / o.fps) ∧
      ∀ wf ∈ encodeFrames frames (gifDelay o), wf.delay = round ((100 : ℚ) / o.fps) := by
  have h1 : (1000 / o.fps) / 10 = (100 : ℚ) / o.fps := by
    rw [div_div, mul_comm, ← div_div]
    norm_num
  have h2 : gifDelay o = round ((100 : ℚ) / o.fps) := by
    rw [gifDelay, h1]
  refine ⟨h2, ?_⟩
  intro wf hwf
  rw [encodeFrames_eq_map, List.mem_map] at hwf
  obtain ⟨f, _, rfl⟩ := hwf
  exact h2

/-- Witness for C8 at fps = 15 and a one-frame list: the delay is
`round (100 / 15) = 7` centiseconds on every written frame. -/
theorem gifDelay_spec_witness :
    (0 : ℚ) < (ConversionOptions.mk 15 480 0 1).fps ∧
      (gifDelay ⟨15, 480, 0, 1⟩ =
          round ((100 : ℚ) / (ConversionOptions.mk 15 480 0 1).fps) ∧
        ∀ wf ∈ encodeFrames [{ timestamp := 0, width := 480, height := 270 }]
            (gifDelay ⟨15, 480, 0, 1⟩),
          wf.delay = round ((100 : ℚ) / (ConversionOptions.mk 15 480 0 1).fps)) :=
  ⟨by norm_num,
    gifDelay_spec ⟨15, 480, 0, 1⟩ [{ timestamp := 0, width := 480, height := 270 }]
      (by norm_num)⟩

/-! ## Helper lemmas for the time-string parser -/

theorem digitsVal_append (l1 l2 : List Char) (a : ℕ) :
    digitsVal (l1 ++ l2) a = digitsVal l2 (digitsVal l1 a) := by
  induction l1 generalizing a with
  | nil => simp [digitsVal]
  | cons c cs ih => simp [digitsVal, ih]

theorem digitChar_isDigit {d : ℕ} (hd : d < 10) : (Nat.digitChar d).isDigit = true := by
  interval_cases d <;> decide

theorem digitVal_digitChar {d : ℕ} (hd : d < 10) : digitVal (Nat.digitChar d) = d := by
  interval_cases d <;> decide

theorem toDecimal_single {n : ℕ} (hn : n < 10) : toDecimal n = [Nat.digitChar n] := by
  unfold toDecimal
  simp [hn]

theorem toDecimal_ne_nil (n : ℕ) : toDecimal n ≠ [] := by
  unfold toDecimal
  split_ifs <;> simp

theorem toDecimal_all_digits (n : ℕ) : ∀ c ∈ toDecimal n, c.isDigit = true := by
  induction n using Nat.strong_induction_on with
  | _ n ih =>
    unfold toDecimal
    split_ifs with hlt
    · intro c hc
      simp only [List.mem_singleton] at hc
      subst hc
      exact digitChar_isDigit hlt
    · intro c hc
      rcases List.mem_append.mp hc with h1 | h2
      · exact ih (n / 10) (Nat.div_lt_self (by omega) (by norm_num)) c h1
      · simp only [List.mem_singleton] at h2
        subst h2
        exact digitChar_isDigit (Nat.mod_lt _ (by norm_num))

theorem digitsVal_toDecimal (n : ℕ) : digitsVal (toDecimal n) 0 = n := by
  induction n using Nat.strong_induction_on with
  | _ n ih =>
    unfold toDecimal
    split_ifs with hlt
    · simp [digitsVal, digitVal_digitChar hlt]
    · rw [digitsVal_append, ih (n / 10) (Nat.div_lt_self (by omega) (by norm_num))]
      have hmod : n % 10 < 10 := Nat.mod_lt _ (by norm_num)
      simp only [digitsVal, digitVal_digitChar hmod]
      omega

theorem secMatchAux_digits (ds : List Char) (hds : ∀ c ∈ ds, c.isDigit = true)
    (v k : ℕ) : secMatchAux ds (some (v, k)) = some (digitsVal ds v) := by
  induction ds generalizing v k with
  | nil => simp [secMatchAux, digitsVal]
  | cons c cs ih =>
    have hc : c.isDigit = true := hds c (by simp)
    simp only [secMatchAux, hc, if_true]
    rw [ih (fun x hx => hds x (by simp [hx]))]
    simp [digitsVal]

theorem secMatchAux_digits_start (ds : List Char) (hne : ds ≠ [])
    (hds : ∀ c ∈ ds, c.isDigit = true) :
    secMatchAux ds none = some (digitsVal ds 0) := by
  cases ds with
  | nil => exact absurd rfl hne
  | cons c cs =>
    have hc : c.isDigit = true := hds c (by simp)
    simp only [secMatchAux, hc, if_true]
    rw [secMatchAux_digits cs (fun x hx => hds x (by simp [hx]))]
    simp [digitsVal]

/-- Claim C3, counterexample: for `h = 10`, `m = 0`, `s = 0` the formatted
string is `"10h0m0s"`, but `parseTimeString` returns `36001`, not
`10 * 3600 = 36000`: the seconds regex `(\d+)(?!h|m)` backtracks into the
two-digit hour run (`"10"` followed by `h` fails, `"1"` followed by the
digit `"0"` succeeds), so a spurious `1` second is added. -/
theorem parseTimeString_roundtrip_cex :
    formatHMS 10 0 0 = "10h0m0s".toList ∧
      parseTimeString "10h0m0s".toList = 36001 ∧
      (10 : ℕ) * 3600 + 0 * 60 + 0 = 36000 := by
  refine ⟨?_, by decide, by norm_num⟩
  have h10 : toDecimal 10 = ['1', '0'] := by
    unfold toDecimal
    norm_num
    unfold toDecimal
    norm_num
    exact ⟨by decide, by decide⟩
  have h0 : toDecimal 0 = ['0'] := by
    unfold toDecimal
    norm_num
    decide
  simp [formatHMS, h10, h0]

/-- Claim C3, amended: the round trip
`parseTimeString "<h>h<m>m<s>s" = h * 3600 + m * 60 + s` holds whenever the
hour and minute components are single-digit (`h < 10` and `m < 10`), for
every seconds value; with a multi-digit hour or minute the seconds regex
matches inside that run instead. -/
theorem parseTimeString_roundtrip (h m s : ℕ) (hh : h < 10) (hm : m < 10) :
    parseTimeString (formatHMS h m s) = h * 3600 + m * 60 + s := by
  have hdh_digit := digitChar_isDigit hh
  have hdh_val := digitVal_digitChar hh
  have hdm_digit := digitChar_isDigit hm
  have hdm_val := digitVal_digitChar hm
  have hhd : ('h' : Char).isDigit = false := by decide
  have hmd : ('m' : Char).isDigit = false := by decide
  have hfmt : formatHMS h m s =
      (Nat.digitChar h :: 'h' :: Nat.digitChar m :: 'm' :: toDecimal s) ++ ['s'] := by
    simp [formatHMS, toDecimal_single hh, toDecimal_single hm]
  have hstrip : stripTrailingS (formatHMS h m s) =
      Nat.digitChar h :: 'h' :: Nat.digitChar m :: 'm' :: toDecimal s := by
    rw [hfmt]
    unfold stripTrailingS
    rw [List.getLast?_concat, List.dropLast_concat]
    simp
  have hnotall :
      ¬ ((Nat.digitChar h :: 'h' :: Nat.digitChar m :: 'm' :: toDecimal s) ≠ [] ∧
        (Nat.digitChar h :: 'h' :: Nat.digitChar m :: 'm' :: toDecimal s).all Char.isDigit) := by
    simp [List.all_cons, hhd]
  have hfh : firstNumBefore 'h'
      (Nat.digitChar h :: 'h' :: Nat.digitChar m :: 'm' :: toDecimal s) = some h := by
    unfold firstNumBefore
    simp [firstNumBeforeAux, hdh_digit, hdh_val, hhd]
  have hfm : firstNumBefore 'm'
      (Nat.digitChar h :: 'h' :: Nat.digitChar m :: 'm' :: toDecimal s) = some m := by
    unfold firstNumBefore
    simp [firstNumBeforeAux, hdh_digit, hdh_val, hdm_digit, hdm_val, hhd, hmd]
  have hsec : secMatch
      (Nat.digitChar h :: 'h' :: Nat.digitChar m :: 'm' :: toDecimal s) = some s := by
    unfold secMatch
    simp only [secMatchAux, hdh_digit, hdm_digit, hhd, hmd, if_true, if_false]
    rw [secMatchAux_digits_start (toDecimal s) (toDecimal_ne_nil s) (toDecimal_all_digits s),
      digitsVal_toDecimal]
    norm_num
  simp only [parseTimeString]
  rw [hstrip, if_neg hnotall, hfh, hfm, hsec]

/-- Witness for C3's amended theorem at `h = 1`, `m = 2`, `s = 75`. -/
theorem parseTimeString_roundtrip_witness :
    (1 : ℕ) < 10 ∧ (2 : ℕ) < 10 ∧
      parseTimeString (formatHMS 1 2 75) = 1 * 3600 + 2 * 60 + 75 :=
  ⟨by norm_num, by norm_num,
    parseTimeString_roundtrip 1 2 75 (by norm_num) (by norm_num)⟩

/-- Claim C6: `parseYouTubeUrl` is total — for every input it returns a
`YouTubeClipInfo` record — and on unrecognized input (an address the URL
constructor rejects, or a well-formed address whose shape matches no
branch) the result is exactly the initial all-null record: `videoId`,
`clipId`, `startTime` and `endTime` are all `none` and `isClip` is
`false`, with the input URL preserved. -/
theorem parseYouTubeUrl_unrecognized_null (url : List Char) (u : Option UrlParts)
    (h : u = none ∨ ∃ p, u = some p ∧ UnrecognizedUrl p) :
    parseYouTubeUrl url u = emptyClipInfo url := by
  rcases h with rfl | ⟨p, rfl, hp⟩
  · rfl
  · obtain ⟨hclip, hyt, hybe, hstart, hend, ht, hhash⟩ := hp
    simp only [parseYouTubeUrl]
    rw [if_neg (by rw [hclip]; exact Bool.false_ne_true)]
    simp at hyt hybe
    rcases hstart with hs | hs <;> rcases hend with he | he <;> rcases ht with ht1 | ht1 <;>
      rw [hhash, ht1, he, hs] <;>
      simp [hyt, hybe, emptyClipInfo]

/-- Witness for C6 at the concrete unrecognized address shape
`example.com/watch?start=&x=1#frag` (empty `start` is falsy and ignored). -/
theorem parseYouTubeUrl_unrecognized_null_witness :
    (some exampleUnrecognizedParts = none ∨
        ∃ p, some exampleUnrecognizedParts = some p ∧ UnrecognizedUrl p) ∧
      parseYouTubeUrl "https://example.com/watch?start=&x=1#frag".toList
          (some exampleUnrecognizedParts) =
        emptyClipInfo "https://example.com/watch?start=&x=1#frag".toList :=
  ⟨Or.inr ⟨exampleUnrecognizedParts, rfl, by decide⟩,
    parseYouTubeUrl_unrecognized_null _ _
      (Or.inr ⟨exampleUnrecognizedParts, rfl, by decide⟩)⟩

/-- Claim C10: whenever the pathname contains `/clip/`, `parseYouTubeUrl`
takes the clip early return: `isClip` is set, `clipId` comes from the clip
regex, `videoId` from the `v` query parameter, and `startTime`/`endTime`
are left `null` — no matter what `start`/`end`/`t` parameters or `#t=`
fragment the URL carries. -/
theorem parseYouTubeUrl_clip_early_return (url : List Char) (p : UrlParts)
    (h : containsSub "/clip/".toList p.pathname = true) :
    (parseYouTubeUrl url (some p)).isClip = true ∧
      (parseYouTubeUrl url (some p)).clipId =
        matchAfterLit "/clip/".toList isIdChar p.pathname ∧
      (parseYouTubeUrl url (some p)).videoId =
        getParam p.searchParams "v".toList ∧
      (parseYouTubeUrl url (some p)).startTime = none ∧
      (parseYouTubeUrl url (some p)).endTime = none := by
  simp only [parseYouTubeUrl]
  rw [if_pos h]
  simp [emptyClipInfo]

/-- Witness for C10 at a clip URL that also carries `start=10`, `end=20`,
`t=30` and `#t=40`: the time fields still come back `null`. -/
theorem parseYouTubeUrl_clip_early_return_witness :
    containsSub "/clip/".toList clipUrlWithTimes.pathname = true ∧
      ((parseYouTubeUrl "u".toList (some clipUrlWithTimes)).isClip = true ∧
        (parseYouTubeUrl "u".toList (some clipUrlWithTimes)).clipId =
          matchAfterLit "/clip/".toList isIdChar clipUrlWithTimes.pathname ∧
        (parseYouTubeUrl "u".toList (some clipUrlWithTimes)).videoId =
          getParam clipUrlWithTimes.searchParams "v".toList ∧
        (parseYouTubeUrl "u".toList (some clipUrlWithTimes)).startTime = none ∧
        (parseYouTubeUrl "u".toList (some clipUrlWithTimes)).endTime = none) :=
  ⟨by decide, parseYouTubeUrl_clip_early_return "u".toList clipUrlWithTimes (by decide)⟩
